import Mathlib

/-!
Verification of the altitude-summary repository's extraction and
aggregation core.  The Python source in `src/src/altitude_parser.py`,
`src/src/dashboard_queries.py` and `src/src/database_client.py` is
shallowly embedded below: Python dicts that act as records become Lean
structures, Python lists become `List`, dict-with-insertion-order maps
become association lists, fallible parsing becomes `Option`, and the
wall clock (`datetime.now()`) becomes an explicit argument.  Functions
keep the source names (leading underscores dropped).
-/

/-! ## String and character utilities mirroring Python primitives -/

/-- Python whitespace characters recognised by `str.split()` / `str.strip()`
and by the regex class `\s` (space, tab, newline, carriage return,
vertical tab, form feed). -/
def isPySpace (c : Char) : Bool :=
  c == ' ' || c == '\t' || c == '\n' || c == '\r' || c == '\x0b' || c == '\x0c'

/-- Accumulator pass of `splitWs`: build the current word in reverse,
emitting it at each whitespace run or at the end. -/
def splitWsAux : List Char → List Char → List (List Char)
  | [], acc => if acc == [] then [] else [acc.reverse]
  | c :: rest, acc =>
    if isPySpace c then
      if acc == [] then splitWsAux rest [] else acc.reverse :: splitWsAux rest []
    else splitWsAux rest (c :: acc)

/-- Python `str.split()` with no separator: split on runs of whitespace,
discarding empty pieces. -/
def splitWs (s : String) : List String :=
  (splitWsAux s.data []).map String.mk

/-- Accumulator pass of `splitOnChar`. -/
def splitOnCharAux (sep : Char) : List Char → List Char → List (List Char)
  | [], acc => [acc.reverse]
  | c :: rest, acc =>
    if c == sep then acc.reverse :: splitOnCharAux sep rest []
    else splitOnCharAux sep rest (c :: acc)

/-- Python `str.split(sep)` for a one-character separator: empty pieces
are kept, and the empty string yields one empty piece. -/
def splitOnChar (sep : Char) (cs : List Char) : List (List Char) :=
  splitOnCharAux sep cs []

/-- Python `str.lower()` (ASCII case map, all this source needs). -/
def lowerString (s : String) : String :=
  String.mk (s.data.map Char.toLower)

/-- Python `str.upper()` (ASCII case map, all this source needs). -/
def upperString (s : String) : String :=
  String.mk (s.data.map Char.toUpper)

/-- Python `str.strip()`: drop leading and trailing whitespace. -/
def pyStrip (s : String) : String :=
  String.mk ((s.data.dropWhile isPySpace).reverse.dropWhile isPySpace |>.reverse)

/-- Value of a nonempty all-digit character list, most significant first. -/
def digitsVal : List Char → Option Nat
  | [] => none
  | cs =>
    if cs.all Char.isDigit then
      some (cs.foldl (fun n c => n * 10 + (c.toNat - '0'.toNat)) 0)
    else none

/-- Python `int(...)` restricted to the shapes exercised here: optional
surrounding whitespace, optional sign, then decimal digits. -/
def pyIntChars (cs0 : List Char) : Option Int :=
  let cs := (cs0.dropWhile isPySpace).reverse.dropWhile isPySpace |>.reverse
  match cs with
  | '-' :: rest => (digitsVal rest).map (fun n => -(n : Int))
  | '+' :: rest => (digitsVal rest).map (fun n => (n : Int))
  | rest => (digitsVal rest).map (fun n => (n : Int))

/-- Python `int(...)` on a string. -/
def pyInt (s : String) : Option Int :=
  pyIntChars s.data

/-- Python `sub in hay` substring test on character lists. -/
def subIn (needle : List Char) : List Char → Bool
  | [] => needle == []
  | c :: t => needle.isPrefixOf (c :: t) || subIn needle t

/-- Python `sub in hay` substring test on strings. -/
def stringIn (needle hay : String) : Bool :=
  subIn needle.data hay.data

/-- Python `hay.find(sub)`: index of the first occurrence, `-1` if absent. -/
def pyFindAux (needle : List Char) : List Char → Int → Int
  | [], i => if needle == [] then i else -1
  | c :: t, i => if needle.isPrefixOf (c :: t) then i else pyFindAux needle t (i + 1)

/-- Python `hay.find(sub)` on strings. -/
def pyFind (hay needle : String) : Int :=
  pyFindAux needle.data hay.data 0

/-! ## Time utility

`time_to_minutes` appears verbatim three times in the source
(`AltitudeParser.time_to_minutes`, `DashboardQueries._time_to_minutes`,
`DatabaseClient._time_to_minutes`); one embedding covers all three.
The Python body is wrapped in `try/except: return 0`; the `Option`
result of `parseTimeTokens` models the exception path. -/

/-- The fallible tokenising prefix of `time_to_minutes`:
`time_part, period = time_str.split()` then
`hours, minutes = map(int, time_part.split(':'))`.
Any shape mismatch raises in Python, i.e. yields `none` here. -/
def parseTimeTokens (s : String) : Option (Int × Int × String) :=
  match splitWs s with
  | [timePart, period] =>
    match splitOnChar ':' timePart.data with
    | [hs, ms] =>
      match pyIntChars hs, pyIntChars ms with
      | some h, some m => some (h, m, period)
      | _, _ => none
    | _ => none
  | _ => none

/-- `time_to_minutes`: convert an `"H:MM AM/PM"` string to minutes since
midnight; any parse failure returns 0.  Note the source adjusts hours
only when the period is exactly `PM`/`AM` (case-insensitively); any
other period string leaves the hour as parsed. -/
def time_to_minutes (s : String) : Int :=
  match parseTimeTokens s with
  | none => 0
  | some (h, m, period) =>
    let hours :=
      if upperString period == "PM" && h != 12 then h + 12
      else if upperString period == "AM" && h == 12 then 0
      else h
    hours * 60 + m

/-- `parse_time_duration` (identical in all three source classes):
`max(0, end_mins - start_mins)`.  The surrounding `try/except` is dead
because `time_to_minutes` is total. -/
def parse_time_duration (start_time end_time : String) : Int :=
  max 0 (time_to_minutes end_time - time_to_minutes start_time)

/-! ## Event records -/

/-- The activity dict built by `AltitudeParser._extract_from_content`:
`{'time': ..., 'activity': ..., 'type': ..., 'raw_content': ...}`. -/
structure Activity where
  time : String
  activity : String
  type : String
  raw_content : String
deriving DecidableEq, Repr

/-- A row of the `activities` database table as consumed by
`DashboardQueries` and `DatabaseClient` (string fields; a SQL `NULL`
subtype is modelled as `""`). -/
structure DbActivity where
  date : String
  activity_type : String
  activity_subtype : String
  activity_name : String
  parsed_time : String
  raw_content : String
deriving DecidableEq, Repr

/-! ## Nearest-timestamp association -/

/-- Absolute distance between two character offsets. -/
def intDist (a b : Int) : Nat := (a - b).natAbs

/-- One iteration of the `_find_closest_time` loop: replace the stored
(minimal distance, text) pair only on a strictly smaller absolute
distance, so the first-encountered match wins ties; `none` models the
initial `min_distance = inf` state. -/
def closestStep (activity_position : Int) (acc : Option (Nat × String)) (tm : Int × String) :
    Option (Nat × String) :=
  let distance := intDist tm.1 activity_position
  match acc with
  | none => some (distance, tm.2)
  | some (md, ct) => if distance < md then some (distance, tm.2) else some (md, ct)

/-- `AltitudeParser._find_closest_time`: scan all timestamp matches
(offset of the whole `posted ...` match, captured time text) keeping
the one with the smallest absolute distance to the activity position;
an empty match list yields `"Unknown"`.  The unused `content` parameter
of the source is dropped. -/
def find_closest_time (activity_position : Int) (time_matches : List (Int × String)) : String :=
  match time_matches.foldl (closestStep activity_position) none with
  | none => "Unknown"
  | some (_, t) => t

/-! ## Daily aggregation (AltitudeParser) -/

/-- The counter dict `{'wet': 0, 'dry': 0, 'bm': 0}`. -/
structure Counts where
  wet : Nat
  dry : Nat
  bm : Nat
deriving DecidableEq, Repr

/-- One iteration of the counting loop in
`AltitudeParser.count_activities_by_type`: each of the three tokens is
tested independently against the lower-cased subtype. -/
def countStep (c : Counts) (a : Activity) : Counts :=
  let t := lowerString a.type
  let c1 := if stringIn "wet" t then { c with wet := c.wet + 1 } else c
  let c2 := if stringIn "dry" t then { c1 with dry := c1.dry + 1 } else c1
  if stringIn "bm" t then { c2 with bm := c2.bm + 1 } else c2

/-- `AltitudeParser.count_activities_by_type`. -/
def count_activities_by_type (activities : List Activity) (activity_name : String) : Counts :=
  (activities.filter (fun a => a.activity == activity_name)).foldl countStep ⟨0, 0, 0⟩

/-- Start time seen by the overwriting loop of
`AltitudeParser.calculate_nap_duration`. -/
def napStartTime (a : Activity) : Option String :=
  if a.activity == "Nap" && lowerString a.type == "start" then some a.time else none

/-- Stop time seen by the overwriting loop of
`AltitudeParser.calculate_nap_duration`. -/
def napStopTime (a : Activity) : Option String :=
  if a.activity == "Nap" && lowerString a.type == "stop" then some a.time else none

/-- The `nap_start = None; nap_end = None; for ...: ... = activity[...]`
loop pattern shared by `AltitudeParser.calculate_nap_duration` and
`DatabaseClient._calculate_nap_duration`: each matching element
overwrites the corresponding slot. -/
def lastPairStep (f g : α → Option String) (p : Option String × Option String) (a : α) :
    Option String × Option String :=
  match f a with
  | some v => (some v, p.2)
  | none =>
    match g a with
    | some w => (p.1, some w)
    | none => p

/-- Fold a whole event list through the overwriting loop. -/
def lastPairFold (f g : α → Option String) (l : List α) : Option String × Option String :=
  l.foldl (lastPairStep f g) (none, none)

/-- `AltitudeParser.calculate_nap_duration`: the final guard
`if nap_start and nap_end and nap_start != "Unknown" and nap_end != "Unknown"`
treats `None` and the empty string as falsy. -/
def calculate_nap_duration (activities : List Activity) : Int :=
  match lastPairFold napStartTime napStopTime activities with
  | (some s, some e) =>
    if s != "" && e != "" && s != "Unknown" && e != "Unknown" then
      parse_time_duration s e
    else 0
  | _ => 0

/-- The meals dict of `AltitudeParser.get_meal_status`. -/
structure MealStatus where
  am_snack : String
  lunch : String
  pm_snack : String
deriving DecidableEq, Repr

/-- `AltitudeParser.get_meal_status`: last write wins per slot, slots
untouched stay `"None"`. -/
def get_meal_status (activities : List Activity) : MealStatus :=
  activities.foldl
    (fun m a =>
      if a.activity == "AM Snack" then { m with am_snack := a.type }
      else if a.activity == "Lunch" then { m with lunch := a.type }
      else if a.activity == "PM Snack" then { m with pm_snack := a.type }
      else m)
    ⟨"None", "None", "None"⟩

/-- The closed list of standard activity names in
`AltitudeParser.get_other_activities`. -/
def standardActivities : List String :=
  ["Toileting", "Diaper", "Nap", "AM Snack", "Lunch", "PM Snack"]

/-- `AltitudeParser.get_other_activities`: `"activity: type"` strings
for non-standard activities, first-occurrence order, exact-string
dedup. -/
def get_other_activities (activities : List Activity) : List String :=
  activities.foldl
    (fun acc a =>
      if standardActivities.contains a.activity then acc
      else
        let s := a.activity ++ ": " ++ a.type
        if acc.contains s then acc else acc ++ [s])
    []

/-! ## Date formatting (`datetime.strptime(date_str, "%Y-%m-%d")` then
`strftime("%A, %B %d, %Y")`); a malformed date raises in
`generate_daily_summary`, modelled as `none`. -/

/-- Gregorian leap-year test. -/
def isLeapYear (y : Nat) : Bool :=
  y % 4 == 0 && (y % 100 != 0 || y % 400 == 0)

/-- Number of days in a month, as validated by `strptime`. -/
def daysInMonth (y m : Nat) : Nat :=
  if m == 2 then (if isLeapYear y then 29 else 28)
  else if m == 4 || m == 6 || m == 9 || m == 11 then 30
  else 31

/-- Parse and validate a `YYYY-MM-DD` date string. -/
def parseDateYMD (s : String) : Option (Nat × Nat × Nat) :=
  match splitOnChar '-' s.data with
  | [ys, ms, ds] =>
    match digitsVal ys, digitsVal ms, digitsVal ds with
    | some y, some m, some d =>
      if 1 ≤ m && m ≤ 12 && 1 ≤ d && d ≤ daysInMonth y m then some (y, m, d) else none
    | _, _, _ => none
  | _ => none

/-- Day of week by Sakamoto's method, 0 = Sunday. -/
def dayOfWeek (y m d : Nat) : Nat :=
  let t := [0, 3, 2, 5, 0, 3, 5, 1, 4, 6, 2, 4]
  let y2 := if m < 3 then y - 1 else y
  (y2 + y2 / 4 - y2 / 100 + y2 / 400 + t.getD (m - 1) 0 + d) % 7

/-- `strftime("%A")` weekday names indexed from Sunday. -/
def weekdayNames : List String :=
  ["Sunday", "Monday", "Tuesday", "Wednesday", "Thursday", "Friday", "Saturday"]

/-- `strftime("%B")` month names indexed from January. -/
def monthNames : List String :=
  ["January", "February", "March", "April", "May", "June", "July",
   "August", "September", "October", "November", "December"]

/-- Two-digit zero padding (`%d`). -/
def pad2 (n : Nat) : String :=
  if n < 10 then "0" ++ toString n else toString n

/-- `datetime.strptime(date_str, "%Y-%m-%d").strftime("%A, %B %d, %Y")`. -/
def formatDate (date_str : String) : Option String :=
  (parseDateYMD date_str).map fun ymd =>
    weekdayNames.getD (dayOfWeek ymd.1 ymd.2.1 ymd.2.2) "" ++ ", " ++
      monthNames.getD (ymd.2.1 - 1) "" ++ " " ++ pad2 ymd.2.2 ++ ", " ++ toString ymd.1

/-! ## `generate_daily_summary` -/

/-- The nested `'summary'` dict of `generate_daily_summary`. -/
structure DailySummaryBody where
  toiletings : Counts
  diapers : Counts
  nap_duration_minutes : Int
  meals : MealStatus
  other_activities : List String
deriving DecidableEq, Repr

/-- The full return dict of `AltitudeParser.generate_daily_summary`. -/
structure DailySummary where
  date : String
  formatted_date : String
  generated_at : String
  summary : DailySummaryBody
  raw_activities : List Activity
deriving DecidableEq, Repr

/-- `AltitudeParser.generate_daily_summary`.  The wall clock read by
`datetime.now().isoformat()` is passed in as `now`; a date string that
`strptime` rejects raises in Python, i.e. yields `none` here. -/
def generate_daily_summary (now : String) (activities : List Activity)
    (date_str : String) : Option DailySummary :=
  (formatDate date_str).map fun formatted =>
    { date := date_str
      formatted_date := formatted
      generated_at := now
      summary :=
        { toiletings := count_activities_by_type activities "Toileting"
          diapers := count_activities_by_type activities "Diaper"
          nap_duration_minutes := calculate_nap_duration activities
          meals := get_meal_status activities
          other_activities := get_other_activities activities }
      raw_activities := activities }

/-! ## Snippet/body merge (`extract_activities_from_message` lines 93-103) -/

/-- The dedup key used by the merge loop: identical `activity`, `type`
and `time` fields. -/
def tripleMatches (b a : Activity) : Bool :=
  b.activity == a.activity && b.type == a.type && b.time == a.time

/-- One iteration of the merge loop: a body event is appended only when
no event accumulated so far (snippet events plus body events already
kept) matches its triple. -/
def mergeStep (acc : List Activity) (a : Activity) : List Activity :=
  if acc.any (fun b => tripleMatches b a) then acc else acc ++ [a]

/-- The merge loop of `AltitudeParser.extract_activities_from_message`:
start from all snippet events and fold the body events through the
dedup check. -/
def mergeActivities (snippetActs fullActs : List Activity) : List Activity :=
  fullActs.foldl mergeStep snippetActs

/-! ## Dashboard queries (`dashboard_queries.py`) -/

/-- `_count_by_type` step is identical in logic to the parser's counter
but reads the database row fields. -/
def countDbStep (c : Counts) (a : DbActivity) : Counts :=
  let t := lowerString a.activity_subtype
  let c1 := if stringIn "wet" t then { c with wet := c.wet + 1 } else c
  let c2 := if stringIn "dry" t then { c1 with dry := c1.dry + 1 } else c1
  if stringIn "bm" t then { c2 with bm := c2.bm + 1 } else c2

/-- `DashboardQueries._count_by_type` (the same loop also appears as
`DatabaseClient._count_activities_by_type`). -/
def count_by_type (activities : List DbActivity) (activity_type : String) : Counts :=
  (activities.filter (fun a => a.activity_type == activity_type)).foldl countDbStep ⟨0, 0, 0⟩

/-- The `starts`/`stops` accumulation loop of
`DashboardQueries._calculate_daily_nap_duration`: append the parsed
time of each nap event to the matching list. -/
def dashNapStep (p : List String × List String) (a : DbActivity) :
    List String × List String :=
  if a.activity_subtype == "start" then (p.1 ++ [a.parsed_time], p.2)
  else if a.activity_subtype == "stop" then (p.1, p.2 ++ [a.parsed_time])
  else p

/-- `_calculate_daily_nap_duration`: fold the nap rows through the
appending loop. -/
def dashNapLists (activities : List DbActivity) : List String × List String :=
  (activities.filter (fun a => a.activity_type == "nap")).foldl dashNapStep ([], [])

/-- `DashboardQueries._calculate_daily_nap_duration`: duration from
`starts[0]` to `stops[0]` when both lists are nonempty, else 0.  No
`"Unknown"` guard exists here (unlike the other two revisions). -/
def calculate_daily_nap_duration (activities : List DbActivity) : Int :=
  match dashNapLists activities with
  | (s :: _, e :: _) => parse_time_duration s e
  | _ => 0

/-- Start time as read by `DatabaseClient._calculate_nap_duration`
(subtype lower-cased before comparison). -/
def dbNapStartTime (a : DbActivity) : Option String :=
  if lowerString a.activity_subtype == "start" then some a.parsed_time else none

/-- Stop time as read by `DatabaseClient._calculate_nap_duration`. -/
def dbNapStopTime (a : DbActivity) : Option String :=
  if lowerString a.activity_subtype == "stop" then some a.parsed_time else none

/-- `DatabaseClient._calculate_nap_duration`: filter nap rows, then the
same overwriting last-start/last-stop loop and falsy/`"Unknown"` guard
as the parser revision. -/
def db_calculate_nap_duration (activities : List DbActivity) : Int :=
  match lastPairFold dbNapStartTime dbNapStopTime
      (activities.filter (fun a => a.activity_type == "nap")) with
  | (some s, some e) =>
    if s != "" && e != "" && s != "Unknown" && e != "Unknown" then
      parse_time_duration s e
    else 0
  | _ => 0

/-! ## Weekly trends and averages (`get_weekly_trends` /
`_calculate_weekly_averages`) -/

/-- The per-day stats dict initialised to zeros in `get_weekly_trends`. -/
structure TrendStats where
  toileting : Nat
  diaper : Nat
  nap_sessions : Nat
  meals_eaten : Nat
  other_activities : Nat
deriving DecidableEq, Repr

/-- The per-activity increment chain of `get_weekly_trends`. -/
def bumpStats (s : TrendStats) (a : DbActivity) : TrendStats :=
  if a.activity_type == "toileting" then { s with toileting := s.toileting + 1 }
  else if a.activity_type == "diaper" then { s with diaper := s.diaper + 1 }
  else if a.activity_type == "nap" then
    (if a.activity_subtype == "start" then { s with nap_sessions := s.nap_sessions + 1 } else s)
  else if a.activity_type == "meal" then
    (if a.activity_subtype == "all" || a.activity_subtype == "some" then
      { s with meals_eaten := s.meals_eaten + 1 } else s)
  else if a.activity_type == "other" then { s with other_activities := s.other_activities + 1 }
  else s

/-- Insertion-ordered dict update: a missing date key is appended with
zeroed stats before the increment, an existing key is updated in place. -/
def updateAssoc (m : List (String × TrendStats)) (d : String) (a : DbActivity) :
    List (String × TrendStats) :=
  match m with
  | [] => [(d, bumpStats ⟨0, 0, 0, 0, 0⟩ a)]
  | (k, v) :: t => if k == d then (k, bumpStats v a) :: t else (k, v) :: updateAssoc t d a

/-- The `daily_stats` grouping loop of `DashboardQueries.get_weekly_trends`:
only dates carrying at least one activity ever receive an entry. -/
def groupDailyStats (activities : List DbActivity) : List (String × TrendStats) :=
  activities.foldl (fun m a => updateAssoc m a.date a) []

/-- Round-half-to-even on an exact rational, the rounding Python's
`round` implements; the source's float representation artifacts are
outside the embedded domain (all values proved about are exact in one
decimal). -/
def roundHalfEven (q : ℚ) : ℤ :=
  let f := ⌊q⌋
  let r := q - (f : ℚ)
  if r < 1 / 2 then f
  else if 1 / 2 < r then f + 1
  else if f % 2 == 0 then f else f + 1

/-- Python `round(x, 1)` on an exact rational. -/
def round1 (q : ℚ) : ℚ := (roundHalfEven (q * 10) : ℚ) / 10

/-- The averages dict returned by `_calculate_weekly_averages` for a
nonempty grouping, in insertion order. -/
structure WeeklyAverages where
  toileting : ℚ
  diaper : ℚ
  nap_sessions : ℚ
  meals_eaten : ℚ
  other_activities : ℚ
  toileting_per_day : ℚ
  diaper_per_day : ℚ
  activities_per_day : ℚ
  nap_duration_minutes : ℚ
deriving DecidableEq, Repr

/-- Total of one stats field over the grouping (the `totals` loop). -/
def sumStats (f : TrendStats → Nat) (ds : List (String × TrendStats)) : Nat :=
  ds.foldl (fun n p => n + f p.2) 0

/-- `DashboardQueries._calculate_weekly_averages`: an empty grouping
returns the empty dict (`none` here); otherwise each average divides a
field total by the number of grouped days and rounds to one decimal.
`activities_per_day` sums every value present in the dict at that
point, which already includes the two `_per_day` aliases. -/
def calculate_weekly_averages (daily_stats : List (String × TrendStats)) :
    Option WeeklyAverages :=
  match daily_stats with
  | [] => none
  | _ :: _ =>
    let num_days : ℚ := (daily_stats.length : ℚ)
    let at1 := round1 ((sumStats (fun s => s.toileting) daily_stats : ℚ) / num_days)
    let ad := round1 ((sumStats (fun s => s.diaper) daily_stats : ℚ) / num_days)
    let an := round1 ((sumStats (fun s => s.nap_sessions) daily_stats : ℚ) / num_days)
    let am := round1 ((sumStats (fun s => s.meals_eaten) daily_stats : ℚ) / num_days)
    let ao := round1 ((sumStats (fun s => s.other_activities) daily_stats : ℚ) / num_days)
    some
      { toileting := at1, diaper := ad, nap_sessions := an, meals_eaten := am
        other_activities := ao, toileting_per_day := at1, diaper_per_day := ad
        activities_per_day := at1 + ad + an + am + ao + at1 + ad
        nap_duration_minutes := 0 }

/-! ## Lifetime summary (`DashboardQueries.get_lifetime_summary`) -/

/-- The return dict of `get_lifetime_summary`. -/
structure LifetimeSummary where
  total_toileting : Nat
  total_diapers : Nat
  total_naps : Nat
  total_activities : Nat
  days_tracked : Nat
  unique_other_activities : Nat
  first_activity_date : String
  last_activity_date : String
  avg_nap_duration : ℚ
deriving DecidableEq, Repr

/-- The per-date nap grouping of `get_lifetime_summary` (and
`get_nap_analysis`): an insertion-ordered dict from date to the
`starts` and `stops` time lists. -/
def napGroupUpdate (m : List (String × List String × List String)) (a : DbActivity) :
    List (String × List String × List String) :=
  match m with
  | [] =>
    if a.activity_subtype == "start" then [(a.date, [a.parsed_time], [])]
    else if a.activity_subtype == "stop" then [(a.date, [], [a.parsed_time])]
    else [(a.date, [], [])]
  | (k, st, sp) :: t =>
    if k == a.date then
      if a.activity_subtype == "start" then (k, st ++ [a.parsed_time], sp) :: t
      else if a.activity_subtype == "stop" then (k, st, sp ++ [a.parsed_time]) :: t
      else (k, st, sp) :: t
    else (k, st, sp) :: napGroupUpdate t a

/-- Positive durations of positionally paired start/stop times for one
day (`for i in range(min(len(starts), len(stops)))`, keep `> 0`). -/
def pairedNapDurations (st sp : List String) : List Int :=
  ((st.zip sp).map (fun p => parse_time_duration p.1 p.2)).filter (fun d => 0 < d)

/-- First-occurrence-preserving distinct elements (the cardinality of a
Python `set` built by insertion). -/
def distinctCount (l : List String) : Nat :=
  (l.foldl (fun acc s => if acc.contains s then acc else acc ++ [s]) []).length

/-- Lexicographic minimum of a date-string list (Python `min`). -/
def minString (x : String) (l : List String) : String :=
  l.foldl (fun a b => if b < a then b else a) x

/-- Lexicographic maximum of a date-string list (Python `max`). -/
def maxString (x : String) (l : List String) : String :=
  l.foldl (fun a b => if a < b then b else a) x

/-- `DashboardQueries.get_lifetime_summary`: empty history takes the
early-return branch of all-zero counts and `"N/A"` sentinel dates; a
nonempty history is folded into type counts, distinct dates and labels,
positionally paired nap durations, and the lexicographic date range. -/
def get_lifetime_summary (activities : List DbActivity) : LifetimeSummary :=
  match activities with
  | [] =>
    { total_toileting := 0, total_diapers := 0, total_naps := 0, total_activities := 0
      days_tracked := 0, unique_other_activities := 0
      first_activity_date := "N/A", last_activity_date := "N/A", avg_nap_duration := 0 }
  | a0 :: rest =>
    let all := a0 :: rest
    let napGroups := (all.filter (fun a => a.activity_type == "nap")).foldl napGroupUpdate []
    let nap_durations := napGroups.foldl (fun acc g => acc ++ pairedNapDurations g.2.1 g.2.2) []
    let dates := all.map (fun a => a.date)
    { total_toileting := (all.filter (fun a => a.activity_type == "toileting")).length
      total_diapers := (all.filter (fun a => a.activity_type == "diaper")).length
      total_naps := nap_durations.length
      total_activities := all.length
      days_tracked := distinctCount dates
      unique_other_activities :=
        distinctCount ((all.filter (fun a => a.activity_type == "other")).map
          (fun a => a.activity_name))
      first_activity_date := minString a0.date (rest.map (fun a => a.date))
      last_activity_date := maxString a0.date (rest.map (fun a => a.date))
      avg_nap_duration :=
        if nap_durations.length == 0 then 0
        else ((nap_durations.foldl (fun s d => s + d) 0 : Int) : ℚ) / (nap_durations.length : ℚ) }

/-! ## Pattern matching (`AltitudeParser.patterns` and `finditer`)

The six field regexes all have the shape
`FieldName:\s*(Alt1|Alt2|...)` with `re.IGNORECASE`; the timestamp
regex is `posted\s+(\d{1,2}:\d{2}\s+[AP]M)`.  They are embedded as
direct scanners over character lists: alternatives are tried left to
right (Python alternation order), `finditer` yields non-overlapping
matches scanning left to right, and captured text keeps the original
casing of the content. -/

/-- Case-insensitive literal match of `pat` as a prefix of `cs`,
returning the rest of `cs`. -/
def matchLitCI : List Char → List Char → Option (List Char)
  | [], cs => some cs
  | _ :: _, [] => none
  | p :: ps, c :: cs => if p.toLower == c.toLower then matchLitCI ps cs else none

/-- Greedy `\s*`: number of leading whitespace characters and the rest. -/
def countWs : List Char → Nat × List Char
  | [] => (0, [])
  | c :: cs =>
    if isPySpace c then
      let r := countWs cs
      (r.1 + 1, r.2)
    else (0, c :: cs)

/-- First alternative (in pattern order) matching a prefix of `cs`,
returning its length. -/
def matchAlt (alts : List String) (cs : List Char) : Option Nat :=
  match alts with
  | [] => none
  | a :: rest =>
    match matchLitCI a.data cs with
    | some _ => some a.length
    | none => matchAlt rest cs

/-- Try one field pattern at the head of `cs`: literal `field ++ ":"`,
then `\s*`, then one alternative.  Returns (length before the capture
group, length of the capture group). -/
def fieldMatchAt (field : String) (alts : List String) (cs : List Char) : Option (Nat × Nat) :=
  match matchLitCI (field ++ ":").data cs with
  | none => none
  | some rest1 =>
    let w := countWs rest1
    match matchAlt alts w.2 with
    | none => none
    | some altLen => some (field.length + 1 + w.1, altLen)

/-- Non-overlapping left-to-right scan (`finditer`): on a match at
absolute offset `i` emit (offset, group 1 text, group 0 text) and
resume after the match; otherwise advance one character.  `fuel`
bounds recursion and is always called with the content length. -/
def findFieldMatchesAux (field : String) (alts : List String) :
    Nat → List Char → Nat → List (Nat × String × String)
  | 0, _, _ => []
  | _ + 1, [], _ => []
  | fuel + 1, c :: rest, i =>
    match fieldMatchAt field alts (c :: rest) with
    | some (pre, altLen) =>
      (i, String.mk (((c :: rest).drop pre).take altLen),
        String.mk ((c :: rest).take (pre + altLen))) ::
        findFieldMatchesAux field alts fuel ((c :: rest).drop (pre + altLen)) (i + pre + altLen)
    | none => findFieldMatchesAux field alts fuel rest (i + 1)

/-- All matches of one field pattern in `content`. -/
def findFieldMatches (field : String) (alts : List String) (content : String) :
    List (Nat × String × String) :=
  findFieldMatchesAux field alts content.length content.data 0

/-- The group of the timestamp pattern after the hour digits:
`:\d{2}\s+[AP]M`.  Returns the number of characters consumed. -/
def timeTailLen (cs : List Char) : Option Nat :=
  match cs with
  | ':' :: m1 :: m2 :: rest =>
    if m1.isDigit && m2.isDigit then
      let w := countWs rest
      if w.1 == 0 then none
      else
        match w.2 with
        | p :: m :: _ =>
          if (p.toLower == 'a' || p.toLower == 'p') && m.toLower == 'm' then
            some (1 + 2 + w.1 + 2)
          else none
        | _ => none
    else none
  | _ => none

/-- Try `posted\s+(\d{1,2}:\d{2}\s+[AP]M)` at the head of `cs`.  The
greedy two-digit hour cannot steal a match from the one-digit hour
(the second character cannot be both a digit and a colon), so plain
first-fit digit grouping is faithful to the regex backtracking.
Returns (length before the capture group, capture group length). -/
def timeMatchAt (cs : List Char) : Option (Nat × Nat) :=
  match matchLitCI "posted".data cs with
  | none => none
  | some rest1 =>
    let w := countWs rest1
    if w.1 == 0 then none
    else
      match w.2 with
      | d1 :: d2 :: rest2 =>
        if d1.isDigit then
          if d2.isDigit then
            (timeTailLen rest2).map (fun t => (6 + w.1, 2 + t))
          else
            (timeTailLen (d2 :: rest2)).map (fun t => (6 + w.1, 1 + t))
        else none
      | _ => none

/-- Scan for timestamp matches; records (offset of the whole match,
captured time text), exactly what `_extract_from_content` stores in
`all_time_matches` and `_find_closest_time` consumes. -/
def findTimeMatchesAux : Nat → List Char → Nat → List (Int × String)
  | 0, _, _ => []
  | _ + 1, [], _ => []
  | fuel + 1, c :: rest, i =>
    match timeMatchAt (c :: rest) with
    | some (pre, gLen) =>
      ((i : Int), String.mk (((c :: rest).drop pre).take gLen)) ::
        findTimeMatchesAux fuel ((c :: rest).drop (pre + gLen)) (i + pre + gLen)
    | none => findTimeMatchesAux fuel rest (i + 1)

/-- All `posted H:MM AM/PM` matches in `content`. -/
def findTimeMatches (content : String) : List (Int × String) :=
  findTimeMatchesAux content.length content.data 0

/-- The `activity_extractors` table of `_extract_from_content`:
activity name, pattern field literal, pattern alternatives in source
order. -/
def activityExtractors : List (String × String × List String) :=
  [("Toileting", "Toileting", ["Wet", "Dry", "BM"]),
   ("Diaper", "Diaper", ["Wet", "Dry", "BM", "Wet + BM"]),
   ("Nap", "Nap", ["Start", "Stop"]),
   ("AM Snack", "AM Snack", ["All", "Some", "None"]),
   ("Lunch", "Lunch", ["All", "Some", "None"]),
   ("PM Snack", "PM Snack", ["All", "Some", "None"])]

/-! ## Free-text educational-activity scan
(`AltitudeParser._extract_educational_activities`) -/

/-- The closed keyword vocabulary. -/
def educationalKeywords : List String :=
  ["clay", "art", "paint", "book", "story", "music", "dance", "game", "play",
   "puzzle", "craft", "draw", "color", "sing"]

/-- Regex word-constituent characters (`\w`). -/
def isWordChar (c : Char) : Bool := c.isAlphanum || c == '_'

/-- `re.search(rf'\b{keyword}\b', line, re.IGNORECASE)`: the keyword
occurs somewhere in the line, bounded by non-word characters or the
line ends (keywords consist of word characters only). -/
def wordBoundarySearchAux (kw : List Char) (prev : Option Char) : List Char → Bool
  | [] => false
  | c :: rest =>
    (matchLitCI kw (c :: rest)).isSome &&
        (match prev with
         | none => true
         | some p => !isWordChar p) &&
        (match (c :: rest).drop kw.length with
         | [] => true
         | nxt :: _ => !isWordChar nxt)
      || wordBoundarySearchAux kw (some c) rest

/-- Whole-word, case-insensitive keyword search in a line. -/
def wordBoundarySearch (kw : String) (line : String) : Bool :=
  wordBoundarySearchAux kw.data none line.data

/-- Python `str.title()` on a single lowercase keyword. -/
def capitalizeWord (s : String) : String :=
  match s.data with
  | [] => ""
  | c :: rest => String.mk (c.toUpper :: rest)

/-- The keyword loop body for one stripped line: on a word-boundary hit
whose line also passes the start/embedded checks, append one event
(timestamped by the line's first `find` position in the content) unless
an event with that activity name already exists, and stop scanning
keywords for this line (`break`); a duplicate hit falls through to the
next keyword without breaking. -/
def eduLine (content line : String) (tms : List (Int × String)) :
    List String → List Activity → List Activity
  | [], acc => acc
  | kw :: rest, acc =>
    let lower := lowerString line
    if wordBoundarySearch kw line &&
        (kw.data.isPrefixOf lower.data || stringIn (" " ++ kw ++ " ") lower || stringIn (kw ++ " ") lower) then
      if acc.any (fun a => lowerString a.activity == kw) then eduLine content line tms rest acc
      else
        let line_pos := pyFind content line
        acc ++ [{ time := find_closest_time line_pos tms
                  activity := capitalizeWord kw
                  type := ""
                  raw_content := line }]
    else eduLine content line tms rest acc

/-- `_extract_educational_activities`: iterate the content's lines
(split on newline), skipping blank lines after stripping, mutating the
shared activities list. -/
def extractEducational (content : String) (acc0 : List Activity)
    (tms : List (Int × String)) : List Activity :=
  ((splitOnChar '\n' content.data).map String.mk).foldl
    (fun acc rawLine =>
      let line := pyStrip rawLine
      if line == "" then acc else eduLine content line tms educationalKeywords acc)
    acc0

/-! ## `_extract_from_content` and `extract_activities_from_message` -/

/-- The events one extractor contributes in `_extract_from_content`:
each field match becomes an event bound to the timestamp nearest its
start offset, capturing the matched value and raw text. -/
def fieldActivities (content : String) (tms : List (Int × String))
    (e : String × String × List String) : List Activity :=
  (findFieldMatches e.2.1 e.2.2 content).map
    (fun m =>
      { time := find_closest_time (m.1 : Int) tms
        activity := e.1
        type := m.2.1
        raw_content := m.2.2 })

/-- `AltitudeParser._extract_from_content`: all timestamp occurrences
are located once; each field match of each of the six extractors
becomes an event; only the `"full"` source additionally runs the
educational keyword scan. -/
def extract_from_content (content : String) (source : String) : List Activity :=
  let all_time_matches := findTimeMatches content
  let activities := activityExtractors.foldl
    (fun acc e => acc ++ fieldActivities content all_time_matches e) []
  if source == "full" then extractEducational content activities all_time_matches
  else activities

/-- A Gmail message as the extractor sees it: the snippet text and the
result of `_get_full_body_content` (the decoded `text/plain` body, or
`""` when the payload is absent or undecodable). -/
structure Message where
  snippet : String
  full_content : String
deriving DecidableEq, Repr

/-- `AltitudeParser.extract_activities_from_message`: snippet events
always survive; the body is scanned (and merged through the triple
dedup) only when it is nonempty and differs from the snippet. -/
def extract_activities_from_message (m : Message) : List Activity :=
  let snippet_activities := extract_from_content m.snippet "snippet"
  if m.full_content != "" && m.full_content != m.snippet then
    mergeActivities snippet_activities (extract_from_content m.full_content "full")
  else snippet_activities

/-! ## Helper functions used only in theorem statements -/

/-- Last element of a list, as an `Option`. -/
def lastOf : List String → Option String
  | [] => none
  | x :: xs => some ((lastOf xs).getD x)

/-- Left-biased choice on options. -/
def orO (a b : Option String) : Option String :=
  match a with
  | some x => some x
  | none => b

/-- Start time as tested by `_calculate_daily_nap_duration`
(exact-case subtype comparison). -/
def dashStartTime (a : DbActivity) : Option String :=
  if a.activity_subtype == "start" then some a.parsed_time else none

/-- Stop time as tested by `_calculate_daily_nap_duration`. -/
def dashStopTime (a : DbActivity) : Option String :=
  if a.activity_subtype == "stop" then some a.parsed_time else none

/-- Drop the wall-clock stamp from a daily summary, for comparing two
runs of the aggregation. -/
def eraseGeneratedAt (o : Option DailySummary) : Option DailySummary :=
  o.map (fun s => { s with generated_at := "" })

/-! ## Definitions modelled from the spec's words, for comparison with
the embedded source functions -/

/-- Modelled from the spec: the tail `":MM AM/PM"` of a well-formed
timestamp (two minute digits, one space, case-insensitive meridiem). -/
def wellFormedTimeTail (cs : List Char) : Bool :=
  match cs with
  | [':', m1, m2, ' ', p, m] =>
    m1.isDigit && m2.isDigit && (p.toLower == 'a' || p.toLower == 'p') && m.toLower == 'm'
  | _ => false

/-- Modelled from the spec: a well-formed `"H:MM AM/PM"` timestamp
text (1-2 digit hour, always 2-digit minute, case-insensitive
meridiem). -/
def wellFormedTime (s : String) : Bool :=
  match s.data with
  | [] => false
  | d1 :: rest =>
    d1.isDigit &&
      (wellFormedTimeTail rest ||
        (match rest with
         | d2 :: rest2 => d2.isDigit && wellFormedTimeTail rest2
         | [] => false))

/-- Modelled from the spec: nap duration from the first Start and the
first Stop event of the day, 0 when either is absent or carries the
unknown-time sentinel. -/
def napDurationSpecFirst (acts : List Activity) : Int :=
  match (acts.filterMap napStartTime).head?, (acts.filterMap napStopTime).head? with
  | some s, some e =>
    if s != "Unknown" && e != "Unknown" then parse_time_duration s e else 0
  | _, _ => 0

/-- Modelled from the spec: keep all short-form events and include a
long-form event iff no short-form event has an identical
(category, subtype, timestamp) triple. -/
def mergeSpecList (snippetActs fullActs : List Activity) : List Activity :=
  snippetActs ++ fullActs.filter (fun a => !(snippetActs.any (fun b => tripleMatches b a)))

/-! ## Theorems -/

/-- C5 counterexample: `"3:15 XY"` is not a well-formed `"H:MM AM/PM"`
string (its meridiem is neither AM nor PM), yet `time_to_minutes`
returns 195, not the 0 the claim promises for every malformed input:
the source only falls back to 0 when tokenisation raises, and an
unrecognised period string is silently interpreted as-is. -/
theorem c5_malformed_not_zero :
    wellFormedTime "3:15 XY" = false ∧
      time_to_minutes "3:15 XY" = 195 ∧ (195 : Int) ≠ 0 := by
  refine ⟨by decide, by decide, by decide⟩

/-- C5 (amended): `time_to_minutes` maps `"12:00 AM"` to 0, `"12:00 PM"`
to 720 and `"02:53 PM"` to 893, is total (never raises), and returns 0
for every input whose tokenisation into hour/minute integers and a
period fails; a tokenisable input with an unrecognised meridiem is
interpreted as-if-unadjusted instead of being forced to 0. -/
theorem c5_time_to_minutes_spec :
    time_to_minutes "12:00 AM" = 0 ∧
      time_to_minutes "12:00 PM" = 720 ∧
        time_to_minutes "02:53 PM" = 893 ∧
          ∀ s, parseTimeTokens s = none → time_to_minutes s = 0 := by
  refine ⟨by decide, by decide, by decide, fun s h => ?_⟩
  simp [time_to_minutes, h]

/-- C5 witness: the tokenisation-failure clause applied to the concrete
input `"Unknown"`. -/
theorem c5_time_to_minutes_spec_witness : time_to_minutes "Unknown" = 0 :=
  c5_time_to_minutes_spec.2.2.2 "Unknown" (by decide)

/-- C6: `parse_time_duration` is exactly the clamped difference
`max(0, minutes(end) - minutes(start))` of the two parsed timestamps,
is never negative, and clamps the mis-ordered pair
`("02:00 PM", "01:00 PM")` to 0. -/
theorem c6_duration_clamped :
    (∀ s e, parse_time_duration s e = max 0 (time_to_minutes e - time_to_minutes s)) ∧
      (∀ s e, 0 ≤ parse_time_duration s e) ∧
        parse_time_duration "02:00 PM" "01:00 PM" = 0 :=
  ⟨fun _ _ => rfl, fun _ _ => le_max_left 0 _, by decide⟩

/-- C9: the lifetime summary of an empty event history is the early
return with every count zero, both sentinel `"N/A"` dates, and a zero
average nap duration; being a total function it never raises. -/
theorem c9_lifetime_empty :
    get_lifetime_summary [] =
      { total_toileting := 0, total_diapers := 0, total_naps := 0, total_activities := 0
        days_tracked := 0, unique_other_activities := 0
        first_activity_date := "N/A", last_activity_date := "N/A", avg_nap_duration := 0 } :=
  rfl

/-- C4 counterexample: the summary dict embeds
`generated_at = datetime.now().isoformat()`, so two runs of the daily
aggregation on the identical event set and date differ whenever the
clock has advanced between them — the outputs are not equal in every
field. -/
theorem c4_two_runs_differ :
    generate_daily_summary "2024-01-05T10:00:00" [] "2024-01-05" ≠
      generate_daily_summary "2024-01-05T10:00:01" [] "2024-01-05" := by
  decide

/-- C4 (amended): re-running the daily aggregation on the identical
event set and date yields output identical in every field except
`generated_at`, which records each run's wall clock. -/
theorem c4_idempotent_modulo_clock :
    ∀ now1 now2 activities date_str,
      eraseGeneratedAt (generate_daily_summary now1 activities date_str) =
        eraseGeneratedAt (generate_daily_summary now2 activities date_str) := by
  intro now1 now2 activities date_str
  unfold generate_daily_summary eraseGeneratedAt
  cases formatDate date_str <;> rfl

/-! ## Helper lemmas about the fold loops -/

theorem lastOf_cons (x : String) (xs : List String) :
    lastOf (x :: xs) = some ((lastOf xs).getD x) := rfl

theorem lastPairFold_aux (f g : α → Option String)
    (hfg : ∀ a, f a = none ∨ g a = none) :
    ∀ (l : List α) (p : Option String × Option String),
      l.foldl (lastPairStep f g) p =
        (orO (lastOf (l.filterMap f)) p.1, orO (lastOf (l.filterMap g)) p.2) := by
  intro l
  induction l with
  | nil => intro p; simp [lastOf, orO]
  | cons a l ih =>
    intro p
    rw [List.foldl_cons, ih]
    cases hfa : f a with
    | some v =>
      have hga : g a = none := by
        rcases hfg a with h | h
        · rw [hfa] at h; exact absurd h (by simp)
        · exact h
      simp only [lastPairStep, hfa, List.filterMap_cons, hga]
      cases h2 : lastOf (l.filterMap f) with
      | none => simp [orO, lastOf_cons, h2]
      | some y => simp [orO, lastOf_cons, h2]
    | none =>
      cases hga : g a with
      | some w =>
        simp only [lastPairStep, hfa, hga, List.filterMap_cons]
        cases h2 : lastOf (l.filterMap g) with
        | none => simp [orO, lastOf_cons, h2]
        | some y => simp [orO, lastOf_cons, h2]
      | none =>
        simp only [lastPairStep, hfa, hga, List.filterMap_cons]

theorem lastPairFold_eq (f g : α → Option String)
    (hfg : ∀ a, f a = none ∨ g a = none) (l : List α) :
    lastPairFold f g l = (lastOf (l.filterMap f), lastOf (l.filterMap g)) := by
  unfold lastPairFold
  rw [lastPairFold_aux f g hfg l]
  cases h1 : lastOf (l.filterMap f) <;> cases h2 : lastOf (l.filterMap g) <;> simp [orO]

theorem napStart_stop_exclusive (a : Activity) :
    napStartTime a = none ∨ napStopTime a = none := by
  by_cases h : lowerString a.type = "start"
  · right
    have hb : (lowerString a.type == "stop") = false := by rw [h]; decide
    simp [napStopTime, hb]
  · left
    have hb : (lowerString a.type == "start") = false := by
      cases hb2 : (lowerString a.type == "start") with
      | true => exact absurd (by simpa using hb2) h
      | false => rfl
    simp [napStartTime, hb]

theorem dbNapStart_stop_exclusive (a : DbActivity) :
    dbNapStartTime a = none ∨ dbNapStopTime a = none := by
  by_cases h : lowerString a.activity_subtype = "start"
  · right
    have hb : (lowerString a.activity_subtype == "stop") = false := by rw [h]; decide
    simp [dbNapStopTime, hb]
  · left
    have hb : (lowerString a.activity_subtype == "start") = false := by
      cases hb2 : (lowerString a.activity_subtype == "start") with
      | true => exact absurd (by simpa using hb2) h
      | false => rfl
    simp [dbNapStartTime, hb]

theorem dashNap_append_aux :
    ∀ (l : List DbActivity) (xs ys : List String),
      l.foldl dashNapStep (xs, ys) =
        (xs ++ l.filterMap dashStartTime, ys ++ l.filterMap dashStopTime) := by
  intro l
  induction l with
  | nil => intro xs ys; simp
  | cons a l ih =>
    intro xs ys
    rw [List.foldl_cons]
    by_cases h1 : a.activity_subtype = "start"
    · have hb1 : (a.activity_subtype == "start") = true := by simp [h1]
      have hb2 : (a.activity_subtype == "stop") = false := by rw [h1]; decide
      simp only [dashNapStep, hb1, if_true]
      rw [ih]
      simp [List.filterMap_cons, dashStartTime, dashStopTime, hb1, hb2]
    · have hb1 : (a.activity_subtype == "start") = false := by
        cases hb : (a.activity_subtype == "start") with
        | true => exact absurd (by simpa using hb) h1
        | false => rfl
      by_cases h2 : a.activity_subtype = "stop"
      · have hb2 : (a.activity_subtype == "stop") = true := by simp [h2]
        simp only [dashNapStep, hb1, hb2, if_true, Bool.false_eq_true, if_false]
        rw [ih]
        simp [List.filterMap_cons, dashStartTime, dashStopTime, hb1, hb2]
      · have hb2 : (a.activity_subtype == "stop") = false := by
          cases hb : (a.activity_subtype == "stop") with
          | true => exact absurd (by simpa using hb) h2
          | false => rfl
        simp only [dashNapStep, hb1, hb2, Bool.false_eq_true, if_false]
        rw [ih]
        simp [List.filterMap_cons, dashStartTime, dashStopTime, hb1, hb2]

/-- C1 counterexample: with two Starts (9:00, 11:00) and one Stop
(11:30), `AltitudeParser.calculate_nap_duration` returns 30 — the
overwriting loop keeps the *last* Start — while the claimed
first-Start/first-Stop rule gives 150; and with an `"Unknown"` Start,
`DashboardQueries._calculate_daily_nap_duration` returns 780 instead
of the claimed 0, because that revision has no unknown-time guard and
`"Unknown"` parses as minute 0. -/
theorem c1_counterexample :
    calculate_nap_duration
        [⟨"09:00 AM", "Nap", "Start", "Nap: Start"⟩,
         ⟨"11:00 AM", "Nap", "Start", "Nap: Start"⟩,
         ⟨"11:30 AM", "Nap", "Stop", "Nap: Stop"⟩] = 30 ∧
      napDurationSpecFirst
        [⟨"09:00 AM", "Nap", "Start", "Nap: Start"⟩,
         ⟨"11:00 AM", "Nap", "Start", "Nap: Start"⟩,
         ⟨"11:30 AM", "Nap", "Stop", "Nap: Stop"⟩] = 150 ∧
      (30 : Int) ≠ 150 ∧
      calculate_daily_nap_duration
        [⟨"2024-01-01", "nap", "start", "Nap", "Unknown", "Nap: Start"⟩,
         ⟨"2024-01-01", "nap", "stop", "Nap", "01:00 PM", "Nap: Stop"⟩] = 780 ∧
      (780 : Int) ≠ 0 := by
  refine ⟨by decide, by decide, by decide, by decide, by decide⟩

/-- C1 (amended): the three nap-duration revisions disagree with the
claim and with each other.  `AltitudeParser.calculate_nap_duration`
and `DatabaseClient._calculate_nap_duration` use the **last** Start and
the **last** Stop, returning 0 when either is absent, empty, or the
`"Unknown"` sentinel; `DashboardQueries._calculate_daily_nap_duration`
uses the first Start and the first Stop but has no sentinel guard, so
an `"Unknown"` time is fed to `durationMinutes` (where it parses as
minute 0). -/
theorem c1_nap_duration_characterised :
    (∀ acts : List Activity,
      calculate_nap_duration acts =
        match lastOf (acts.filterMap napStartTime), lastOf (acts.filterMap napStopTime) with
        | some s, some e =>
          if s != "" && e != "" && s != "Unknown" && e != "Unknown" then
            parse_time_duration s e
          else 0
        | _, _ => 0) ∧
    (∀ acts : List DbActivity,
      calculate_daily_nap_duration acts =
        match ((acts.filter (fun a => a.activity_type == "nap")).filterMap dashStartTime).head?,
            ((acts.filter (fun a => a.activity_type == "nap")).filterMap dashStopTime).head? with
        | some s, some e => parse_time_duration s e
        | _, _ => 0) ∧
    (∀ acts : List DbActivity,
      db_calculate_nap_duration acts =
        match lastOf ((acts.filter (fun a => a.activity_type == "nap")).filterMap dbNapStartTime),
            lastOf ((acts.filter (fun a => a.activity_type == "nap")).filterMap dbNapStopTime) with
        | some s, some e =>
          if s != "" && e != "" && s != "Unknown" && e != "Unknown" then
            parse_time_duration s e
          else 0
        | _, _ => 0) := by
  refine ⟨fun acts => ?_, fun acts => ?_, fun acts => ?_⟩
  · unfold calculate_nap_duration
    rw [lastPairFold_eq napStartTime napStopTime napStart_stop_exclusive]
    cases lastOf (acts.filterMap napStartTime) <;>
      cases lastOf (acts.filterMap napStopTime) <;> rfl
  · unfold calculate_daily_nap_duration dashNapLists
    rw [dashNap_append_aux]
    cases (acts.filter (fun a => a.activity_type == "nap")).filterMap dashStartTime <;>
      cases (acts.filter (fun a => a.activity_type == "nap")).filterMap dashStopTime <;> rfl
  · unfold db_calculate_nap_duration
    rw [lastPairFold_eq dbNapStartTime dbNapStopTime dbNapStart_stop_exclusive]
    cases lastOf ((acts.filter (fun a => a.activity_type == "nap")).filterMap dbNapStartTime) <;>
      cases lastOf ((acts.filter (fun a => a.activity_type == "nap")).filterMap dbNapStopTime) <;>
        rfl

theorem closest_argmin_aux (pos : Int) :
    ∀ (l : List (Int × String)) (acc : Option (Int × String)),
      l.foldl (closestStep pos) (acc.map (fun tm => (intDist tm.1 pos, tm.2))) =
        (l.foldl (List.argAux fun b c => intDist b.1 pos < intDist c.1 pos) acc).map
          (fun tm => (intDist tm.1 pos, tm.2)) := by
  intro l
  induction l with
  | nil => intro acc; rfl
  | cons a l ih =>
    intro acc
    rw [List.foldl_cons, List.foldl_cons]
    have hstep : closestStep pos (acc.map fun tm => (intDist tm.1 pos, tm.2)) a =
        ((List.argAux (fun b c => intDist b.1 pos < intDist c.1 pos) acc a).map
          (fun tm => (intDist tm.1 pos, tm.2))) := by
      cases acc with
      | none => rfl
      | some c =>
        simp only [Option.map_some', closestStep, List.argAux]
        by_cases h : intDist a.1 pos < intDist c.1 pos
        · simp [h]
        · simp [h]
    rw [hstep, ih]

/-- C2: `_find_closest_time` returns the unknown-time sentinel on an
empty timestamp list and otherwise the text of the timestamp occurrence
minimising the absolute character distance to the activity position,
with ties resolved in favour of the first-encountered occurrence —
i.e. exactly `List.argmin` of the distance function.  Being total it
never fails. -/
theorem c2_find_closest_time_argmin :
    ∀ (pos : Int) (l : List (Int × String)),
      find_closest_time pos [] = "Unknown" ∧
        find_closest_time pos l =
          ((l.argmin (fun tm => intDist tm.1 pos)).map (fun tm => tm.2)).getD "Unknown" := by
  intro pos l
  refine ⟨rfl, ?_⟩
  unfold find_closest_time List.argmin
  have h0 := closest_argmin_aux pos l none
  simp only [Option.map_none'] at h0
  rw [h0]
  cases l.foldl (List.argAux fun b c => intDist b.1 pos < intDist c.1 pos) none with
  | none => rfl
  | some tm => rfl

theorem mergeFold_structure :
    ∀ (f : List Activity) (acc : List Activity),
      ∃ rest, f.foldl mergeStep acc = acc ++ rest ∧
        (∀ y ∈ rest, y ∈ f) ∧
        (∀ y ∈ rest, ∀ x ∈ acc, tripleMatches x y = false) ∧
        rest.Pairwise (fun x y => tripleMatches x y = false) := by
  intro f
  induction f with
  | nil => intro acc; exact ⟨[], by simp, by simp, by simp, List.Pairwise.nil⟩
  | cons a f ih =>
    intro acc
    rw [List.foldl_cons]
    by_cases h : acc.any (fun b => tripleMatches b a) = true
    · have hstep : mergeStep acc a = acc := by simp [mergeStep, h]
      rw [hstep]
      obtain ⟨rest, h1, h2, h3, h4⟩ := ih acc
      exact ⟨rest, h1, fun y hy => List.mem_cons_of_mem a (h2 y hy), h3, h4⟩
    · have hstep : mergeStep acc a = acc ++ [a] := by simp [mergeStep, h]
      rw [hstep]
      obtain ⟨rest, h1, h2, h3, h4⟩ := ih (acc ++ [a])
      have hnot : ∀ x ∈ acc, tripleMatches x a = false := by
        intro x hx
        cases hb : tripleMatches x a with
        | false => rfl
        | true => exact absurd (List.any_eq_true.mpr ⟨x, hx, hb⟩) h
      refine ⟨a :: rest, ?_, ?_, ?_, ?_⟩
      · rw [h1]; simp
      · intro y hy
        rcases List.mem_cons.mp hy with heq | hy2
        · exact List.mem_cons.mpr (Or.inl heq)
        · exact List.mem_cons_of_mem a (h2 y hy2)
      · intro y hy x hx
        rcases List.mem_cons.mp hy with heq | hy2
        · rw [heq]; exact hnot x hx
        · exact h3 y hy2 x (List.mem_append_left [a] hx)
      · refine List.pairwise_cons.mpr ⟨?_, h4⟩
        intro y hy
        exact h3 y hy a (List.mem_append_right acc (List.mem_singleton_self a))

theorem mergeFold_complete :
    ∀ (f : List Activity) (acc : List Activity) (a : Activity), a ∈ f →
      ∃ b, b ∈ f.foldl mergeStep acc ∧ tripleMatches b a = true := by
  intro f
  induction f with
  | nil => intro acc a ha; exact absurd ha (List.not_mem_nil a)
  | cons hd f ih =>
    intro acc a ha
    rw [List.foldl_cons]
    rcases List.mem_cons.mp ha with heq | ha2
    · subst heq
      by_cases h : acc.any (fun b => tripleMatches b a) = true
      · have hstep : mergeStep acc a = acc := by simp [mergeStep, h]
        rw [hstep]
        obtain ⟨x, hx, hxa⟩ := List.any_eq_true.mp h
        obtain ⟨rest, h1, _, _, _⟩ := mergeFold_structure f acc
        exact ⟨x, by rw [h1]; exact List.mem_append_left rest hx, hxa⟩
      · have hstep : mergeStep acc a = acc ++ [a] := by simp [mergeStep, h]
        rw [hstep]
        obtain ⟨rest, h1, _, _, _⟩ := mergeFold_structure f (acc ++ [a])
        refine ⟨a, ?_, ?_⟩
        · rw [h1]
          exact List.mem_append_left rest
            (List.mem_append_right acc (List.mem_singleton_self a))
        · simp [tripleMatches]
    · exact ih (mergeStep acc hd) a ha2

/-- C3 counterexample: the merge loop checks each long-form event
against the *accumulated* list (snippet events plus long-form events
already kept), not only against the short-form events.  With an empty
snippet and a long-form list carrying two events with an identical
(category, subtype, timestamp) triple, the claim's rule keeps both but
the code keeps only the first. -/
theorem c3_counterexample :
    mergeActivities []
        [⟨"10:00 AM", "Toileting", "Wet", "r1"⟩, ⟨"10:00 AM", "Toileting", "Wet", "r2"⟩] =
      [⟨"10:00 AM", "Toileting", "Wet", "r1"⟩] ∧
    mergeSpecList []
        [⟨"10:00 AM", "Toileting", "Wet", "r1"⟩, ⟨"10:00 AM", "Toileting", "Wet", "r2"⟩] =
      [⟨"10:00 AM", "Toileting", "Wet", "r1"⟩, ⟨"10:00 AM", "Toileting", "Wet", "r2"⟩] ∧
    ([⟨"10:00 AM", "Toileting", "Wet", "r1"⟩] : List Activity) ≠
      [⟨"10:00 AM", "Toileting", "Wet", "r1"⟩, ⟨"10:00 AM", "Toileting", "Wet", "r2"⟩] := by
  refine ⟨by decide, by decide, by decide⟩

/-- C3 (amended): the merged result keeps every short-form event as a
prefix; every kept long-form event comes from the long-form list, and a
long-form event is included iff no *previously accumulated* event
(short-form, or a long-form event already included) has an identical
(category, subtype, timestamp) triple — so every long-form event's
triple is represented in the result, the appended events clash neither
with the short-form events nor with each other, and the spec's concrete
example still yields exactly 2 events. -/
theorem c3_merge_characterised :
    (∀ (s f : List Activity) (a : Activity), a ∈ f →
      ∃ b, b ∈ mergeActivities s f ∧ tripleMatches b a = true) ∧
    (∀ s f : List Activity, ∃ rest, mergeActivities s f = s ++ rest ∧
      (∀ y ∈ rest, y ∈ f) ∧
      (∀ y ∈ rest, ∀ x ∈ s, tripleMatches x y = false) ∧
      rest.Pairwise (fun x y => tripleMatches x y = false)) ∧
    (mergeActivities [⟨"10:00 AM", "Toileting", "Wet", "Toileting: Wet"⟩]
        [⟨"10:00 AM", "Toileting", "Wet", "Toileting: Wet"⟩,
         ⟨"Unknown", "Clay", "", "Clay"⟩]).length = 2 :=
  ⟨fun s f a ha => mergeFold_complete f s a ha,
   fun s f => mergeFold_structure f s,
   by decide⟩

/-- C3 witness: the triple-completeness clause applied to the concrete
long-form event `Clay` with an empty snippet list. -/
theorem c3_merge_characterised_witness :
    ∃ b, b ∈ mergeActivities [] [⟨"Unknown", "Clay", "", "Clay"⟩] ∧
      tripleMatches b ⟨"Unknown", "Clay", "", "Clay"⟩ = true :=
  c3_merge_characterised.1 [] [⟨"Unknown", "Clay", "", "Clay"⟩]
    ⟨"Unknown", "Clay", "", "Clay"⟩ (List.mem_singleton_self _)

theorem counts_ext {c d : Counts} (hw : c.wet = d.wet) (hd : c.dry = d.dry)
    (hb : c.bm = d.bm) : c = d := by
  cases c; cases d; simp_all

theorem countFold_field (step : Counts → α → Counts) (p : α → Bool) (f : Counts → Nat)
    (hstep : ∀ c a, f (step c a) = f c + (if p a then 1 else 0)) :
    ∀ (l : List α) (c : Counts), f (l.foldl step c) = f c + (l.filter p).length := by
  intro l
  induction l with
  | nil => intro c; simp
  | cons a l ih =>
    intro c
    rw [List.foldl_cons, ih, hstep]
    by_cases h : p a = true
    · simp [h, List.filter_cons]
      omega
    · simp [h, List.filter_cons]

theorem countStep_wet (c : Counts) (a : Activity) :
    (countStep c a).wet = c.wet + (if stringIn "wet" (lowerString a.type) then 1 else 0) := by
  unfold countStep
  by_cases h1 : stringIn "wet" (lowerString a.type) = true <;>
    by_cases h2 : stringIn "dry" (lowerString a.type) = true <;>
      by_cases h3 : stringIn "bm" (lowerString a.type) = true <;>
        simp [h1, h2, h3]

theorem countStep_dry (c : Counts) (a : Activity) :
    (countStep c a).dry = c.dry + (if stringIn "dry" (lowerString a.type) then 1 else 0) := by
  unfold countStep
  by_cases h1 : stringIn "wet" (lowerString a.type) = true <;>
    by_cases h2 : stringIn "dry" (lowerString a.type) = true <;>
      by_cases h3 : stringIn "bm" (lowerString a.type) = true <;>
        simp [h1, h2, h3]

theorem countStep_bm (c : Counts) (a : Activity) :
    (countStep c a).bm = c.bm + (if stringIn "bm" (lowerString a.type) then 1 else 0) := by
  unfold countStep
  by_cases h1 : stringIn "wet" (lowerString a.type) = true <;>
    by_cases h2 : stringIn "dry" (lowerString a.type) = true <;>
      by_cases h3 : stringIn "bm" (lowerString a.type) = true <;>
        simp [h1, h2, h3]

theorem countDbStep_wet (c : Counts) (a : DbActivity) :
    (countDbStep c a).wet =
      c.wet + (if stringIn "wet" (lowerString a.activity_subtype) then 1 else 0) := by
  unfold countDbStep
  by_cases h1 : stringIn "wet" (lowerString a.activity_subtype) = true <;>
    by_cases h2 : stringIn "dry" (lowerString a.activity_subtype) = true <;>
      by_cases h3 : stringIn "bm" (lowerString a.activity_subtype) = true <;>
        simp [h1, h2, h3]

theorem countDbStep_dry (c : Counts) (a : DbActivity) :
    (countDbStep c a).dry =
      c.dry + (if stringIn "dry" (lowerString a.activity_subtype) then 1 else 0) := by
  unfold countDbStep
  by_cases h1 : stringIn "wet" (lowerString a.activity_subtype) = true <;>
    by_cases h2 : stringIn "dry" (lowerString a.activity_subtype) = true <;>
      by_cases h3 : stringIn "bm" (lowerString a.activity_subtype) = true <;>
        simp [h1, h2, h3]

theorem countDbStep_bm (c : Counts) (a : DbActivity) :
    (countDbStep c a).bm =
      c.bm + (if stringIn "bm" (lowerString a.activity_subtype) then 1 else 0) := by
  unfold countDbStep
  by_cases h1 : stringIn "wet" (lowerString a.activity_subtype) = true <;>
    by_cases h2 : stringIn "dry" (lowerString a.activity_subtype) = true <;>
      by_cases h3 : stringIn "bm" (lowerString a.activity_subtype) = true <;>
        simp [h1, h2, h3]

/-- C7: in both the parser's and the dashboard's counters, each of the
wet/dry/bm tallies independently counts the events of the requested
category whose case-folded subtype contains that token as a substring;
in particular a single `"Wet + BM"` Toileting event increments `wet`
and `bm` by exactly 1 and leaves `dry` at 0. -/
theorem c7_subtype_counters :
    (∀ (acts : List Activity) (name : String),
      count_activities_by_type acts name =
        { wet := ((acts.filter (fun a => a.activity == name)).filter
            (fun a => stringIn "wet" (lowerString a.type))).length
          dry := ((acts.filter (fun a => a.activity == name)).filter
            (fun a => stringIn "dry" (lowerString a.type))).length
          bm := ((acts.filter (fun a => a.activity == name)).filter
            (fun a => stringIn "bm" (lowerString a.type))).length }) ∧
    (∀ (acts : List DbActivity) (tname : String),
      count_by_type acts tname =
        { wet := ((acts.filter (fun a => a.activity_type == tname)).filter
            (fun a => stringIn "wet" (lowerString a.activity_subtype))).length
          dry := ((acts.filter (fun a => a.activity_type == tname)).filter
            (fun a => stringIn "dry" (lowerString a.activity_subtype))).length
          bm := ((acts.filter (fun a => a.activity_type == tname)).filter
            (fun a => stringIn "bm" (lowerString a.activity_subtype))).length }) ∧
    count_activities_by_type [⟨"10:00 AM", "Toileting", "Wet + BM", "r"⟩] "Toileting" =
      ⟨1, 0, 1⟩ := by
  refine ⟨fun acts name => ?_, fun acts tname => ?_, by decide⟩
  · unfold count_activities_by_type
    apply counts_ext
    · rw [countFold_field countStep _ (fun c => c.wet) countStep_wet]; simp
    · rw [countFold_field countStep _ (fun c => c.dry) countStep_dry]; simp
    · rw [countFold_field countStep _ (fun c => c.bm) countStep_bm]; simp
  · unfold count_by_type
    apply counts_ext
    · rw [countFold_field countDbStep _ (fun c => c.wet) countDbStep_wet]; simp
    · rw [countFold_field countDbStep _ (fun c => c.dry) countDbStep_dry]; simp
    · rw [countFold_field countDbStep _ (fun c => c.bm) countDbStep_bm]; simp

theorem mem_keys_updateAssoc :
    ∀ (m : List (String × TrendStats)) (d : String) (a : DbActivity) (x : String),
      x ∈ (updateAssoc m d a).map Prod.fst ↔ x ∈ m.map Prod.fst ∨ x = d := by
  intro m
  induction m with
  | nil => intro d a x; simp [updateAssoc]
  | cons p t ih =>
    intro d a x
    obtain ⟨k, v⟩ := p
    by_cases h : k = d
    · have hb : (k == d) = true := by simp [h]
      simp only [updateAssoc, hb, if_true, List.map_cons, List.mem_cons]
      rw [h]
      tauto
    · have hb : (k == d) = false := by simp [h]
      simp only [updateAssoc, hb, Bool.false_eq_true, if_false, List.map_cons,
        List.mem_cons, ih]
      tauto

theorem nodup_keys_updateAssoc :
    ∀ (m : List (String × TrendStats)) (d : String) (a : DbActivity),
      (m.map Prod.fst).Nodup → ((updateAssoc m d a).map Prod.fst).Nodup := by
  intro m
  induction m with
  | nil => intro d a _; simp [updateAssoc]
  | cons p t ih =>
    intro d a h
    obtain ⟨k, v⟩ := p
    rw [List.map_cons, List.nodup_cons] at h
    by_cases hk : k = d
    · have hb : (k == d) = true := by simp [hk]
      simp only [updateAssoc, hb, if_true, List.map_cons, List.nodup_cons]
      exact h
    · have hb : (k == d) = false := by simp [hk]
      simp only [updateAssoc, hb, Bool.false_eq_true, if_false, List.map_cons,
        List.nodup_cons]
      refine ⟨fun hmem => ?_, ih d a h.2⟩
      rcases (mem_keys_updateAssoc t d a k).mp hmem with h2 | h2
      · exact h.1 h2
      · exact hk h2

theorem keys_groupFold :
    ∀ (acts : List DbActivity) (m : List (String × TrendStats)) (x : String),
      x ∈ (acts.foldl (fun m a => updateAssoc m a.date a) m).map Prod.fst ↔
        x ∈ m.map Prod.fst ∨ x ∈ acts.map (fun a => a.date) := by
  intro acts
  induction acts with
  | nil => intro m x; simp
  | cons a acts ih =>
    intro m x
    rw [List.foldl_cons, ih, mem_keys_updateAssoc]
    simp only [List.map_cons, List.mem_cons]
    tauto

theorem nodup_keys_groupFold :
    ∀ (acts : List DbActivity) (m : List (String × TrendStats)),
      (m.map Prod.fst).Nodup →
        ((acts.foldl (fun m a => updateAssoc m a.date a) m).map Prod.fst).Nodup := by
  intro acts
  induction acts with
  | nil => intro m h; exact h
  | cons a acts ih =>
    intro m h
    rw [List.foldl_cons]
    exact ih _ (nodup_keys_updateAssoc m a.date a h)

theorem bumpStats_toileting (s : TrendStats) (a : DbActivity) :
    (bumpStats s a).toileting =
      s.toileting + (if a.activity_type == "toileting" then 1 else 0) := by
  unfold bumpStats
  split_ifs <;> simp_all

theorem sumStats_fold_init (f : TrendStats → Nat) :
    ∀ (t : List (String × TrendStats)) (n : Nat),
      t.foldl (fun n p => n + f p.2) n = n + sumStats f t := by
  intro t
  induction t with
  | nil => intro n; simp [sumStats]
  | cons p t ih =>
    intro n
    unfold sumStats
    rw [List.foldl_cons, List.foldl_cons, ih, ih]
    omega

theorem sumStats_cons (f : TrendStats → Nat) (p : String × TrendStats)
    (t : List (String × TrendStats)) :
    sumStats f (p :: t) = f p.2 + sumStats f t := by
  show (p :: t).foldl (fun n q => n + f q.2) 0 = f p.2 + sumStats f t
  rw [List.foldl_cons, sumStats_fold_init]
  omega

theorem sumStats_updateAssoc_toileting :
    ∀ (m : List (String × TrendStats)) (d : String) (a : DbActivity),
      sumStats (fun s => s.toileting) (updateAssoc m d a) =
        sumStats (fun s => s.toileting) m +
          (if a.activity_type == "toileting" then 1 else 0) := by
  intro m
  induction m with
  | nil =>
    intro d a
    simp only [updateAssoc, sumStats, List.foldl_cons, List.foldl_nil]
    rw [bumpStats_toileting]
    simp
  | cons p t ih =>
    intro d a
    obtain ⟨k, v⟩ := p
    by_cases hk : k = d
    · have hb : (k == d) = true := by simp [hk]
      simp only [updateAssoc, hb, if_true]
      rw [sumStats_cons, sumStats_cons]
      dsimp only
      rw [bumpStats_toileting]
      omega
    · have hb : (k == d) = false := by simp [hk]
      simp only [updateAssoc, hb, Bool.false_eq_true, if_false]
      rw [sumStats_cons, sumStats_cons]
      have h2 := ih d a
      dsimp only at h2 ⊢
      omega

theorem sumT_groupFold :
    ∀ (acts : List DbActivity) (m : List (String × TrendStats)),
      sumStats (fun s => s.toileting) (acts.foldl (fun m a => updateAssoc m a.date a) m) =
        sumStats (fun s => s.toileting) m +
          (acts.filter (fun a => a.activity_type == "toileting")).length := by
  intro acts
  induction acts with
  | nil => intro m; simp
  | cons a acts ih =>
    intro m
    rw [List.foldl_cons, ih, sumStats_updateAssoc_toileting]
    by_cases h : (a.activity_type == "toileting") = true
    · simp only [h, if_true, List.filter_cons, List.length_cons]
      omega
    · simp only [h, Bool.false_eq_true, if_false, List.filter_cons]
      omega

theorem sumT_groupDailyStats (acts : List DbActivity) :
    sumStats (fun s => s.toileting) (groupDailyStats acts) =
      (acts.filter (fun a => a.activity_type == "toileting")).length := by
  unfold groupDailyStats
  rw [sumT_groupFold]
  simp [sumStats]

theorem groupDailyStats_ne_nil (a : DbActivity) (rest : List DbActivity) :
    groupDailyStats (a :: rest) ≠ [] := by
  intro hnil
  have hmem : a.date ∈ (groupDailyStats (a :: rest)).map Prod.fst := by
    unfold groupDailyStats
    exact (keys_groupFold (a :: rest) [] a.date).mpr (Or.inr (by simp))
  rw [hnil] at hmem
  simp at hmem

/-- C8 counterexample: the window averages are rounded to one decimal
(`round(total / num_days, 1)`), so with one toileting event spread over
three populated days the reported `toileting_per_day` is 3/10, not the
exact arithmetic mean 1/3 the claim asserts. -/
theorem c8_counterexample :
    (calculate_weekly_averages (groupDailyStats
        [⟨"2024-01-01", "toileting", "wet", "Toileting", "10:00 AM", "r"⟩,
         ⟨"2024-01-02", "diaper", "wet", "Diaper", "10:00 AM", "r"⟩,
         ⟨"2024-01-03", "diaper", "wet", "Diaper", "10:00 AM", "r"⟩])).map
      (fun w => w.toileting_per_day) = some (3 / 10) ∧
    ((3 : ℚ) / 10) ≠ (1 : ℚ) / 3 := by
  constructor
  · have hg : groupDailyStats
        [⟨"2024-01-01", "toileting", "wet", "Toileting", "10:00 AM", "r"⟩,
         ⟨"2024-01-02", "diaper", "wet", "Diaper", "10:00 AM", "r"⟩,
         ⟨"2024-01-03", "diaper", "wet", "Diaper", "10:00 AM", "r"⟩] =
        [("2024-01-01", ⟨1, 0, 0, 0, 0⟩), ("2024-01-02", ⟨0, 1, 0, 0, 0⟩),
         ("2024-01-03", ⟨0, 1, 0, 0, 0⟩)] := by decide
    rw [hg]
    unfold calculate_weekly_averages
    simp only [Option.map_some']
    have hs : sumStats (fun s => s.toileting)
        [("2024-01-01", (⟨1, 0, 0, 0, 0⟩ : TrendStats)), ("2024-01-02", ⟨0, 1, 0, 0, 0⟩),
         ("2024-01-03", ⟨0, 1, 0, 0, 0⟩)] = 1 := by decide
    rw [hs]
    simp only [Option.some.injEq, List.length_cons, List.length_nil]
    norm_num
    show round1 ((1 : ℚ) / 3) = 3 / 10
    unfold round1 roundHalfEven
    have hf : ⌊((1 : ℚ) / 3 * 10)⌋ = 3 := by
      rw [Int.floor_eq_iff]
      constructor <;> norm_num
    rw [hf]
    norm_num
  · norm_num

/-- C8 (amended): a date enters the `daily_stats` grouping iff it is
the date of at least one activity in the window, the grouping's keys
are free of duplicates, and for a nonempty window the reported
`toileting_per_day` is the total toileting count divided by the number
of grouped (populated) days — not the calendar span — rounded to one
decimal; the spec's 3-day window with 5 and 3 toileting events on 2
populated days still averages exactly 4.0. -/
theorem c8_weekly_average_denominator :
    (∀ (acts : List DbActivity) (d : String),
      d ∈ (groupDailyStats acts).map Prod.fst ↔ d ∈ acts.map (fun a => a.date)) ∧
    (∀ acts : List DbActivity, ((groupDailyStats acts).map Prod.fst).Nodup) ∧
    (∀ acts : List DbActivity, acts ≠ [] →
      (calculate_weekly_averages (groupDailyStats acts)).map (fun w => w.toileting_per_day) =
        some (round1
          (((acts.filter (fun a => a.activity_type == "toileting")).length : ℚ) /
            ((groupDailyStats acts).length : ℚ)))) ∧
    (calculate_weekly_averages (groupDailyStats
        (List.replicate 5 (⟨"2024-01-01", "toileting", "wet", "Toileting", "10:00 AM", "r"⟩ :
            DbActivity) ++
          List.replicate 3 ⟨"2024-01-02", "toileting", "wet", "Toileting", "11:00 AM", "r"⟩))).map
      (fun w => w.toileting_per_day) = some 4 := by
  refine ⟨fun acts d => ?_, fun acts => ?_, fun acts hne => ?_, ?_⟩
  · unfold groupDailyStats
    rw [keys_groupFold]
    simp
  · unfold groupDailyStats
    exact nodup_keys_groupFold acts [] (by simp)
  · have hsum := sumT_groupDailyStats acts
    cases hg : groupDailyStats acts with
    | nil =>
      cases acts with
      | nil => exact absurd rfl hne
      | cons a rest => exact absurd hg (groupDailyStats_ne_nil a rest)
    | cons p t =>
      rw [hg] at hsum
      unfold calculate_weekly_averages
      simp only [Option.map_some', Option.some.injEq]
      rw [hsum]
  · have hg : groupDailyStats
        (List.replicate 5 (⟨"2024-01-01", "toileting", "wet", "Toileting", "10:00 AM", "r"⟩ :
            DbActivity) ++
          List.replicate 3 ⟨"2024-01-02", "toileting", "wet", "Toileting", "11:00 AM", "r"⟩) =
        [("2024-01-01", ⟨5, 0, 0, 0, 0⟩), ("2024-01-02", ⟨3, 0, 0, 0, 0⟩)] := by decide
    rw [hg]
    unfold calculate_weekly_averages
    simp only [Option.map_some']
    have hs : sumStats (fun s => s.toileting)
        [("2024-01-01", (⟨5, 0, 0, 0, 0⟩ : TrendStats)), ("2024-01-02", ⟨3, 0, 0, 0, 0⟩)] = 8 := by
      decide
    rw [hs]
    simp only [Option.some.injEq, List.length_cons, List.length_nil]
    norm_num
    unfold round1 roundHalfEven
    norm_num

/-- C8 witness: the populated-days average clause applied to a concrete
one-activity window. -/
theorem c8_weekly_average_denominator_witness :
    (calculate_weekly_averages (groupDailyStats
        [⟨"2024-01-03", "toileting", "wet", "Toileting", "9:00 AM", "r"⟩])).map
      (fun w => w.toileting_per_day) =
      some (round1
        ((([(⟨"2024-01-03", "toileting", "wet", "Toileting", "9:00 AM", "r"⟩ : DbActivity)].filter
            (fun a => a.activity_type == "toileting")).length : ℚ) /
          ((groupDailyStats
            [⟨"2024-01-03", "toileting", "wet", "Toileting", "9:00 AM", "r"⟩]).length : ℚ))) :=
  c8_weekly_average_denominator.2.2.1
    [⟨"2024-01-03", "toileting", "wet", "Toileting", "9:00 AM", "r"⟩] (by simp)

theorem mem_extract_fold :
    ∀ (l : List (String × String × List String)) (acc : List Activity)
      (content : String) (tms : List (Int × String)) (a : Activity),
      a ∈ l.foldl (fun acc e => acc ++ fieldActivities content tms e) acc →
      a ∈ acc ∨ ∃ e, e ∈ l ∧ a.activity = e.1 := by
  intro l
  induction l with
  | nil => intro acc content tms a ha; exact Or.inl ha
  | cons e l ih =>
    intro acc content tms a ha
    rw [List.foldl_cons] at ha
    rcases ih _ content tms a ha with h | ⟨e2, he2, hae⟩
    · rcases List.mem_append.mp h with h2 | h2
      · exact Or.inl h2
      · obtain ⟨m, _, hm⟩ := List.mem_map.mp h2
        exact Or.inr ⟨e, List.mem_cons_self e l, by rw [← hm]⟩
    · exact Or.inr ⟨e2, List.mem_cons_of_mem e he2, hae⟩

/-- C10: when the decoded long-form body is empty or coincides with the
snippet, per-message extraction takes the snippet-only path — the body
scan, including the free-text keyword pass, never runs — so the result
equals the snippet extraction, and every event it contains carries one
of the six standard field names (hence no Other-category event is
produced for that message). -/
theorem c10_snippet_only_pass :
    ∀ m : Message, (m.full_content = "" ∨ m.full_content = m.snippet) →
      extract_activities_from_message m = extract_from_content m.snippet "snippet" ∧
        ∀ a, a ∈ extract_activities_from_message m → a.activity ∈ standardActivities := by
  intro m hm
  have hcond : (m.full_content != "" && m.full_content != m.snippet) = false := by
    rcases hm with h | h <;> simp [h]
  have heq : extract_activities_from_message m = extract_from_content m.snippet "snippet" := by
    unfold extract_activities_from_message
    simp only [hcond, Bool.false_eq_true, if_false]
  refine ⟨heq, fun a ha => ?_⟩
  rw [heq] at ha
  have hsf : (("snippet" : String) == "full") = false := by decide
  simp only [extract_from_content, hsf, Bool.false_eq_true, if_false] at ha
  rcases mem_extract_fold activityExtractors [] m.snippet (findTimeMatches m.snippet) a ha with
    h | ⟨e, he, hae⟩
  · exact absurd h (List.not_mem_nil a)
  · rw [hae]
    fin_cases he <;> decide

/-- C10 witness: a message whose body is absent (decoded to the empty
string) extracts exactly its snippet events. -/
theorem c10_snippet_only_pass_witness :
    extract_activities_from_message ⟨"Nap: Stop", ""⟩ =
      extract_from_content "Nap: Stop" "snippet" :=
  (c10_snippet_only_pass ⟨"Nap: Stop", ""⟩ (Or.inl rfl)).1
